import Mathlib

/-!
Verification of the shaferlab-ethoscope orchestration core.

This file shallowly embeds, in Lean 4, the construction-time yoke-resolution
algorithm and the run loop of `src/ethoscope/core/monitor.py`, and the
stimulation dispatch logic of `src/pysolovideo/tracking/interactors.py`, and
proves properties of these embeddings.

Conventions of the embedding:
* Python exceptions are modelled with `Except PyErr`.
* Python list indexing `xs[i]` (which accepts negative indices) is modelled by
  `pyGet` / `pySet`, faithful to CPython semantics: index `i` with
  `-len(xs) <= i < 0` addresses element `len(xs) + i`; anything outside
  `-len(xs) <= i < len(xs)` raises `IndexError`.
* Tracker-algorithm instances (external collaborators, out of the core's
  scope) are modelled by identity: each construction of a `TrackingUnit`
  allocates a fresh tracker id from a counter that is threaded through the
  construction, so "the same tracker object" is "the same id".
-/

/-- Python exception kinds raised by the embedded code. -/
inductive PyErr where
  | indexError
  | attributeError
  | valueError (msg : String)
  | notImplementedError (msg : String)
deriving DecidableEq, Repr

/-- Boolean success test for `Except` results. -/
def exceptOk {ε α : Type} : Except ε α → Bool
  | .ok _ => true
  | .error _ => false

/-- CPython list index resolution: a non-negative index must be `< n`; a
negative index `i` with `-n ≤ i` addresses `n + i`; otherwise `IndexError`. -/
def pyIdx (n : Nat) (i : Int) : Except PyErr Nat :=
  if 0 ≤ i then
    if i < (n : Int) then .ok i.toNat else .error .indexError
  else
    if -(n : Int) ≤ i then .ok (i + (n : Int)).toNat else .error .indexError

/-- `xs[i]` with CPython index semantics. -/
def pyGet {α : Type} (xs : List α) (i : Int) : Except PyErr α :=
  match pyIdx xs.length i with
  | .error e => .error e
  | .ok j =>
    match xs[j]? with
    | some a => .ok a
    | none => .error .indexError

/-- `xs[i] = a` with CPython index semantics. -/
def pySet {α : Type} (xs : List α) (i : Int) (a : α) : Except PyErr (List α) :=
  match pyIdx xs.length i with
  | .error e => .error e
  | .ok j => .ok (xs.set j a)

/-- A region of interest: an externally defined geometry carrying a stable
integer identifier (`roi.idx` in the source). Geometry itself is out of
scope; the identifier is what the core logic consumes. -/
structure ROI where
  idx : Nat
deriving DecidableEq, Repr

/-- The per-ROI bundle built by `Monitor.__init__`. `tracker` is the unit's
own tracker-algorithm instance (by id); `stim` is the stimulator value bound
to the unit (`None` when no stimulator list was supplied); `stimTracker` is
the id of the tracker instance whose state the stimulator observes. -/
structure TrackingUnit where
  roi : ROI
  stim : Option Nat
  tracker : Nat
  stimTracker : Option Nat
deriving DecidableEq, Repr

/-- Modelled from the spec: the `TrackingUnit` constructor
(`ethoscope/core/tracking_unit.py` is imported by `monitor.py` but is not
among the provided source files). Per the spec (data model §3, component
§4.1, and the yoke-resolver step 4 with its post-condition): a TrackingUnit
owns one freshly created tracker-algorithm instance, which is never null
after construction; it holds its ROI and its optional StimulationAction; the
StimulationAction is bound to observe a tracker state, namely the `tracker`
override passed by the Monitor's yoke resolution when one is given (the
focal unit's tracker), and otherwise the unit's own tracker. `fresh` is the
next unused tracker id; it is consumed and incremented. -/
def mkTrackingUnit (r : ROI) (stim : Option Nat) (trackerOverride : Option Nat)
    (fresh : Nat) : TrackingUnit × Nat :=
  ({ roi := r
     stim := stim
     tracker := fresh
     stimTracker :=
       match stim with
       | none => none
       | some _ => some (trackerOverride.getD fresh) },
   fresh + 1)

/-- Branch of `Monitor.__init__` with `stimulators is None`: one unit per
ROI, no stimulator bound. -/
def buildUnitsNoStim : List ROI → Nat → List TrackingUnit × Nat
  | [], fresh => ([], fresh)
  | r :: rs, fresh =>
    let (tu, fresh') := mkTrackingUnit r none none fresh
    let (rest, fresh'') := buildUnitsNoStim rs fresh'
    (tu :: rest, fresh'')

/-- Branch of `Monitor.__init__` with stimulators and no yoke mapping:
`zip(rois, stimulators)` pairing, index aligned (like Python's `zip`, the
shorter list truncates; the caller guarantees equal lengths). -/
def buildUnitsZip : List ROI → List Nat → Nat → List TrackingUnit × Nat
  | r :: rs, s :: ss, fresh =>
    let (tu, fresh') := mkTrackingUnit r (some s) none fresh
    let (rest, fresh'') := buildUnitsZip rs ss fresh'
    (tu :: rest, fresh'')
  | _, _, fresh => ([], fresh)

/-- First yoke loop of `Monitor.__init__`: `for f in yoke.values()`, build
the focal unit at index `int(f) - 1` if that slot is still `None`. -/
def yokeLoop1 (rois : List ROI) (stims : List Nat) :
    List Int → List (Option TrackingUnit) → Nat →
    Except PyErr (List (Option TrackingUnit) × Nat)
  | [], arr, fresh => .ok (arr, fresh)
  | f :: fs, arr, fresh => do
    let cur ← pyGet arr (f - 1)
    match cur with
    | some _ => yokeLoop1 rois stims fs arr fresh
    | none =>
      let r ← pyGet rois (f - 1)
      let s ← pyGet stims (f - 1)
      let (tu, fresh') := mkTrackingUnit r (some s) none fresh
      let arr' ← pySet arr (f - 1) (some tu)
      yokeLoop1 rois stims fs arr' fresh'

/-- Second yoke loop of `Monitor.__init__`: `for y, f in yoke.items()`,
rebuild the unit at index `int(y) - 1` with its own ROI and stimulator but
with the stimulator observing the tracker of the unit currently stored at
index `int(f) - 1`. Reading `._tracker` of a `None` slot raises
`AttributeError` in Python. -/
def yokeLoop2 (rois : List ROI) (stims : List Nat) :
    List (Int × Int) → List (Option TrackingUnit) → Nat →
    Except PyErr (List (Option TrackingUnit) × Nat)
  | [], arr, fresh => .ok (arr, fresh)
  | (y, f) :: ps, arr, fresh => do
    let r ← pyGet rois (y - 1)
    let s ← pyGet stims (y - 1)
    let focalSlot ← pyGet arr (f - 1)
    match focalSlot with
    | none => .error .attributeError
    | some focal =>
      let (tu, fresh') := mkTrackingUnit r (some s) (some focal.tracker) fresh
      let arr' ← pySet arr (y - 1) (some tu)
      yokeLoop2 rois stims ps arr' fresh'

/-- Third yoke loop of `Monitor.__init__`: any slot still `None` (a region
id that is neither yoked nor focal) defaults to a direct focal pairing with
its own positional stimulator. The final `assert` of the source (every unit
has a non-null tracker) holds by construction here, since every built unit
carries a tracker id. Length-mismatched inputs cannot be reached: the three
lists all have the ROI count as length. -/
def yokeFill : List (Option TrackingUnit) → List ROI → List Nat → Nat →
    List TrackingUnit × Nat
  | [], _, _, fresh => ([], fresh)
  | some u :: arr, _ :: rs, _ :: ss, fresh =>
    let (rest, fresh') := yokeFill arr rs ss fresh
    (u :: rest, fresh')
  | none :: arr, r :: rs, s :: ss, fresh =>
    let (tu, fresh') := mkTrackingUnit r (some s) none fresh
    let (rest, fresh'') := yokeFill arr rs ss fresh'
    (tu :: rest, fresh'')
  | _ :: _, _, _, fresh => ([], fresh)

/-- The unit-construction logic of `Monitor.__init__`
(`src/ethoscope/core/monitor.py`, lines 65-107). `rois? = none` models
`rois=None` (which raises `NotImplementedError`); `stimulators = none`
models `stimulators=None`; `yoke = none` models `yoke` being `None` or the
empty string, and `yoke = some yk` models the already `json.loads`-parsed
dictionary `{yoked-id: focal-id}` as its association list in iteration
order (a Python dict, so keys are distinct). `fresh` seeds the tracker-id
counter. -/
def monitorInitUnits (rois? : Option (List ROI)) (stimulators : Option (List Nat))
    (yoke : Option (List (Int × Int))) (fresh : Nat) :
    Except PyErr (List TrackingUnit) :=
  match rois? with
  | none => .error (.notImplementedError "rois must exist (cannot be None)")
  | some rois =>
    match stimulators with
    | none => .ok (buildUnitsNoStim rois fresh).1
    | some stims =>
      if stims.length = rois.length then
        match yoke with
        | none => .ok (buildUnitsZip rois stims fresh).1
        | some yk => do
          let arr0 : List (Option TrackingUnit) := List.replicate rois.length none
          let (arr1, fresh1) ← yokeLoop1 rois stims (yk.map Prod.snd) arr0 fresh
          let (arr2, fresh2) ← yokeLoop2 rois stims yk arr1 fresh1
          .ok (yokeFill arr2 rois stims fresh2).1
      else .error (.valueError "You should have one interactor per ROI")

/-- A raw camera frame; its pixel content is outside the core, so frames are
opaque tokens. -/
abbrev Frame := Nat

/-- A position record produced by a tracker for one frame; its fields are
tracker specific and outside the core, so records are opaque tokens. -/
abbrev Row := Nat

/-- The mutable state of a `Monitor` instance, as initialised by
`Monitor.__init__` (lines 57-62) and mutated by `run`. `frameBuffer` and
`lastT` are only assigned inside `run` in the source, hence `Option`. -/
structure Monitor where
  lastFrameIdx : Nat := 0
  forceStop : Bool := false
  lastPositions : List (Nat × List Row) := []
  lastTimeStamp : ℚ := 0
  isRunning : Bool := false
  frameBuffer : Option Frame := none
  lastT : Option ℚ := none
deriving DecidableEq, Repr

/-- `Monitor.stop` (lines 134-138): sets the `_force_stop` flag; a Python
method with no `return` returns `None`, modelled as `Unit`. -/
def Monitor.stop (m : Monitor) : Monitor × Unit :=
  ({ m with forceStop := true }, ())

/-- `Monitor.last_time_stamp` property (lines 117-124): milliseconds from
the frame source exposed to callers in seconds. -/
def Monitor.lastTimeStampSeconds (m : Monitor) : ℚ :=
  m.lastTimeStamp / 1000

/-- Overwrite-or-insert into the `last_positions` dictionary, keyed by the
ROI identifier. -/
def assocSet (ps : List (Nat × List Row)) (k : Nat) (v : List Row) :
    List (Nat × List Row) :=
  match ps with
  | [] => [(k, v)]
  | (k', v') :: rest => if k' = k then (k, v) :: rest else (k', v') :: assocSet rest k v

/-- The view of one tracking unit that `Monitor.run` consumes.
`track` models `TrackingUnit.track(t, frame)` (it may raise, and the
exception is not swallowed); `lastPosAbs` models
`get_last_positions(absolute=True)`. Both delegate to the external
tracker/ROI collaborators, which the spec leaves outside the core, so they
are arbitrary functions here. -/
structure RunUnit where
  roi : ROI
  track : ℚ → Frame → Except PyErr (List Row)
  lastPosAbs : ℚ → Frame → List Row

/-- Side effects `run` sends to the optional persistence and drawing
collaborators, in order. -/
inductive Effect where
  | write (t : ℚ) (roiIdx : Nat) (rows : List Row)
  | flush (t : ℚ) (frame : Frame)
  | draw (frame : Frame)
deriving DecidableEq, Repr

/-- The inner per-frame loop of `Monitor.run` (lines 164-176): iterate the
units in order; a unit returning zero rows records an empty list for its
ROI; otherwise record the absolute positions and, when a result writer is
present, emit a write. A raised exception aborts the iteration, leaving the
state as mutated so far. -/
def trackUnits (hasWriter : Bool) (t : ℚ) (frame : Frame) :
    List RunUnit → Monitor → List Effect →
    Except PyErr Unit × Monitor × List Effect
  | [], m, eff => (.ok (), m, eff)
  | u :: us, m, eff =>
    match u.track t frame with
    | .error e => (.error e, m, eff)
    | .ok dataRows =>
      if dataRows.length = 0 then
        trackUnits hasWriter t frame us
          { m with lastPositions := assocSet m.lastPositions u.roi.idx [] } eff
      else
        let absPos := u.lastPosAbs t frame
        let m' := { m with lastPositions := assocSet m.lastPositions u.roi.idx absPos }
        let eff' := if hasWriter then eff ++ [.write t u.roi.idx dataRows] else eff
        trackUnits hasWriter t frame us m' eff'

/-- The frame loop of `Monitor.run` (lines 154-183):
`for i, (t, frame) in enumerate(self._camera)`. The `force_stop` flag is
checked at the top of each iteration, before any of the frame's work. -/
def runLoop (units : List RunUnit) (hasWriter hasDrawer : Bool) :
    List (ℚ × Frame) → Nat → Monitor → List Effect →
    Except PyErr Unit × Monitor × List Effect
  | [], _, m, eff => (.ok (), m, eff)
  | (t, frame) :: rest, i, m, eff =>
    if m.forceStop then (.ok (), m, eff)
    else
      let m1 := { m with lastFrameIdx := i, lastTimeStamp := t, frameBuffer := some frame }
      match trackUnits hasWriter t frame units m1 eff with
      | (.error e, m2, eff2) => (.error e, m2, eff2)
      | (.ok _, m2, eff2) =>
        let eff3 := if hasWriter then eff2 ++ [.flush t frame] else eff2
        let eff4 := if hasDrawer then eff3 ++ [.draw frame] else eff3
        runLoop units hasWriter hasDrawer rest (i + 1) { m2 with lastT := some t } eff4

/-- `Monitor.run` (lines 140-191). The camera is modelled as the finite
list of `(timestamp, frame)` pairs it yields before exhaustion; the
`result_writer` and `drawer` arguments are modelled by their presence, with
the calls they receive collected in the effect list. The
`try/except/finally` shape: an exception is logged and re-raised (the
`Except.error` result), and the `finally` block clears `_is_running` on
every exit path. -/
def Monitor.run (m : Monitor) (units : List RunUnit) (hasWriter hasDrawer : Bool)
    (frames : List (ℚ × Frame)) : Except PyErr Unit × Monitor × List Effect :=
  let m1 := { m with isRunning := true }
  let out := runLoop units hasWriter hasDrawer frames 0 m1 []
  (out.1, { out.2.1 with isRunning := false }, out.2.2)

/-- Values stored in the small parameter dictionaries the interactors
return (`{"channel": ...}`, `{"freq": ...}`, `"interact"`). -/
inductive PyVal where
  | int (n : Int)
  | bool (b : Bool)
  | rat (q : ℚ)
deriving DecidableEq, Repr

/-- A Python dictionary with string keys, as an association list in
insertion order. -/
abbrev Params := List (String × PyVal)

/-- `result["interact"] = interact`: overwrite in place if the key exists,
else append. -/
def setKey (ps : Params) (k : String) (v : PyVal) : Params :=
  match ps with
  | [] => [(k, v)]
  | (k', v') :: rest => if k' = k then (k, v) :: rest else (k', v') :: setKey rest k v

/-- A tracked position sample as the interactors consume it: the fields
`"x"`, `"y"` and (for the diagnostic print) `"roi_idx"`. -/
structure Pos where
  x : ℚ
  y : ℚ
  roiIdx : Nat
deriving DecidableEq, Repr

/-- `SleepDepInteractor.__init__` hardcodes `_distance_threshold = 1e-2`. -/
def sleepDepDistanceThreshold : ℚ := 1 / 100

/-- `SleepDepInteractor.__init__` hardcodes
`_inactivity_time_threshold = 90` seconds. -/
def sleepDepInactivityThreshold : ℚ := 90

/-- The mutable state of a `SleepDepInteractor`: its channel and the
inactivity-timer origin `_t0`. -/
structure SleepDepInteractor where
  channel : Int
  t0 : Option ℚ
deriving DecidableEq, Repr

/-- `SleepDepInteractor._run` (interactors.py lines 50-78). `pos` and `t`
are the bound tracker's `positions` and `times` histories. The comparison
`np.abs(xy_m - xy_mm) < self._distance_threshold` is the Euclidean norm of
the complex difference compared against the threshold `1/100 > 0`; it is
encoded by the equivalent squared comparison
`dx^2 + dy^2 < threshold^2`, which avoids an irrational square root while
agreeing with the source on every input. -/
def SleepDepInteractor._run (c : SleepDepInteractor) (pos : List Pos)
    (t : List ℚ) : Except PyErr (Bool × Params × SleepDepInteractor) :=
  if pos.length < 2 then .ok (false, [("channel", .int c.channel)], c)
  else do
    let tailM ← pyGet pos (-1)
    let tailMM ← pyGet pos (-2)
    if (tailM.x - tailMM.x) ^ 2 + (tailM.y - tailMM.y) ^ 2 <
        sleepDepDistanceThreshold ^ 2 then
      let now ← pyGet t (-1)
      match c.t0 with
      | none => .ok (false, [("channel", .int c.channel)], { c with t0 := some now })
      | some u =>
        if now - u > sleepDepInactivityThreshold then
          .ok (true, [("channel", .int c.channel)], { c with t0 := none })
        else
          .ok (false, [("channel", .int c.channel)], c)
    else
      .ok (false, [("channel", .int c.channel)], { c with t0 := none })

/-- The state of a `BaseInteractor` (the asynchronous variant,
interactors.py lines 83-121): whether `self._subprocess.is_alive()`,
whether `self._target` is defined, the kwargs the last started background
process was given, and a ghost counter of how many background executions
`_interact_async` has started (`Process(...).start()` calls). The class
initialises `_subprocess` to a never-started `multiprocessing.Process()`,
so `alive` starts `false`. -/
structure BaseInteractor where
  alive : Bool
  hasTarget : Bool
  lastKwargs : Option Params := none
  started : Nat := 0
deriving DecidableEq, Repr

/-- `BaseInteractor._interact_async` (lines 110-121): if the previous
background process is still alive, return immediately (the request is
dropped — no queue, no blocking); if `_target` is undefined, raise; else
start exactly one new background process with the given kwargs. -/
def BaseInteractor._interact_async (s : BaseInteractor) (kwargs : Params) :
    Except PyErr BaseInteractor :=
  if s.alive then .ok s
  else if s.hasTarget = false then
    .error (.notImplementedError "_target must ba a defined function")
  else
    .ok { s with alive := true, started := s.started + 1, lastKwargs := some kwargs }

/-- The event of the background process finishing: `is_alive()` becomes
false. Nothing else of the interactor's state changes. -/
def BaseInteractor.completeBackground (s : BaseInteractor) : BaseInteractor :=
  { s with alive := false }

/-- `BaseInteractorSync.__call__` (lines 14-24): fails fast when no tracker
is bound; otherwise runs the decision step, performs the action inline when
the decision is positive, and returns the decision-step dictionary with
`"interact"` added. The decision step `self._run()` is a function of the
bound tracker's state; its outcome is passed in as `runRes`. The second
component reports whether `_interact` was invoked inline. -/
def BaseInteractorSync.call (trackerBound : Bool) (runRes : Bool × Params) :
    Except PyErr (Params × Bool) :=
  if trackerBound = false then
    .error (.valueError "No tracker bound to this interactor. Use `bind_tracker()` methods")
  else
    .ok (setKey runRes.2 "interact" (.bool runRes.1), runRes.1)

/-- `BaseInteractor.__call__` (lines 90-100), the asynchronous variant:
same shape, but a positive decision is dispatched through
`_interact_async` (which may silently drop it), and the updated dispatcher
state is returned alongside the dictionary. -/
def BaseInteractor.call (trackerBound : Bool) (runRes : Bool × Params)
    (s : BaseInteractor) : Except PyErr (Params × BaseInteractor) :=
  if trackerBound = false then
    .error (.valueError "No tracker bound to this interactor. Use `bind_tracker()` methods")
  else do
    let s' ← if runRes.1 then BaseInteractor._interact_async s runRes.2 else pure s
    pure (setKey runRes.2 "interact" (.bool runRes.1), s')

/-- `SystemPlaySoundOnStop.__init__` hardcodes `_distance_threshold = 0.2`. -/
def soundDistanceThreshold : ℚ := 1 / 5

/-- `SystemPlaySoundOnStop.__init__` hardcodes
`_inactivity_time_threshold = 30` seconds (the trailing window). -/
def soundInactivityThreshold : ℚ := 30

/-- `SystemPlaySoundOnStop.__init__` hardcodes `_rest_time = 60` seconds
(the cool-down between triggers). -/
def soundRestTime : ℚ := 60

/-- The mutable state of a `SystemPlaySoundOnStop`: its beep frequency and
the last-trigger time `_t0`. -/
structure SystemPlaySoundOnStop where
  freq : ℚ
  t0 : Option ℚ
deriving DecidableEq, Repr

/-- The loop body of `SystemPlaySoundOnStop._cumulative_dist` (lines
149-164), over `reversed(zip(times, positions))`: the first (latest) pair
only seeds the lag; each later pair adds the Euclidean segment length
`sqrt(dx^2 + dy^2)` and then breaks once the pair is older than the
trailing window (so exactly one segment beyond the window is included).
`sq` is the square-root routine (`math.sqrt`), an external numeric
function, passed in as a parameter. -/
def cumulativeDistLoop (sq : ℚ → ℚ) (now : ℚ) :
    List (ℚ × Pos) → Option (ℚ × ℚ) → ℚ → ℚ
  | [], _, acc => acc
  | (_, p) :: rest, none, acc => cumulativeDistLoop sq now rest (some (p.x, p.y)) acc
  | (t, p) :: rest, some lag, acc =>
    let acc2 := acc + sq ((lag.1 - p.x) ^ 2 + (lag.2 - p.y) ^ 2)
    if now - t > soundInactivityThreshold then acc2
    else cumulativeDistLoop sq now rest (some (p.x, p.y)) acc2

/-- `SystemPlaySoundOnStop._cumulative_dist` (lines 149-164).
`now = times[-1]`; every caller guarantees `times` nonempty (the empty case
would raise in the source before reaching this computation), so the last
element is taken with default `0`. -/
def SystemPlaySoundOnStop._cumulative_dist (sq : ℚ → ℚ) (times : List ℚ)
    (pos : List Pos) : ℚ :=
  cumulativeDistLoop sq (times.getLastD 0) ((times.zip pos).reverse) none 0

/-- `SystemPlaySoundOnStop._run` (lines 166-187): no decision before the
trailing window is full; no trigger while the windowed path length exceeds
the distance threshold; otherwise trigger immediately if never triggered
before, and re-trigger only after the rest time has elapsed, recording the
trigger time in `_t0`. The diagnostic `print` indexes `positions[-1]`,
which is kept for its possible `IndexError`. -/
def SystemPlaySoundOnStop._run (sq : ℚ → ℚ) (c : SystemPlaySoundOnStop)
    (pos : List Pos) (times : List ℚ) :
    Except PyErr (Bool × Params × SystemPlaySoundOnStop) := do
  let now ← pyGet times (-1)
  if times.length < 2 then .ok (false, [("freq", .rat c.freq)], c)
  else do
    let firstT ← pyGet times 0
    if now - firstT < soundInactivityThreshold then
      .ok (false, [("freq", .rat c.freq)], c)
    else do
      let cumDist := SystemPlaySoundOnStop._cumulative_dist sq times pos
      let _lastP ← pyGet pos (-1)
      if cumDist > soundDistanceThreshold then
        .ok (false, [("freq", .rat c.freq)], c)
      else
        match c.t0 with
        | none => .ok (true, [("freq", .rat c.freq)], { c with t0 := some now })
        | some u =>
          if now - u < soundRestTime then
            .ok (false, [("freq", .rat c.freq)], c)
          else
            .ok (true, [("freq", .rat c.freq)], { c with t0 := some now })

/-- An instantiation of the `math.sqrt` parameter for the concrete
scenarios below, exact on the inputs they reach: the squared segment
lengths there are only `0` (square root `0`) and `1/25` (square root
`1/5`), on which this function agrees with the real square root. -/
def sqrtOnScenario (q : ℚ) : ℚ :=
  if q = 1 / 25 then 1 / 5 else 0

/-! Helper lemmas about the CPython indexing model. -/

theorem pyGet_concat_neg_one {α : Type} (xs : List α) (a : α) :
    pyGet (xs ++ [a]) (-1) = .ok a := by
  have hlen : (xs ++ [a]).length = xs.length + 1 := by simp
  unfold pyGet pyIdx
  rw [hlen]
  rw [if_neg (by norm_num)]
  rw [if_pos (by push_cast; omega)]
  have h3 : ((-1 : Int) + ((xs.length + 1 : Nat) : Int)).toNat = xs.length := by omega
  rw [h3]
  simp

theorem pyGet_concat2_neg_one {α : Type} (xs : List α) (a b : α) :
    pyGet (xs ++ [a, b]) (-1) = .ok b := by
  have h : xs ++ [a, b] = (xs ++ [a]) ++ [b] := by simp
  rw [h, pyGet_concat_neg_one]

theorem pyGet_concat2_neg_two {α : Type} (xs : List α) (a b : α) :
    pyGet (xs ++ [a, b]) (-2) = .ok a := by
  have hlen : (xs ++ [a, b]).length = xs.length + 2 := by simp
  unfold pyGet pyIdx
  rw [hlen]
  rw [if_neg (by norm_num)]
  rw [if_pos (by push_cast; omega)]
  have h3 : ((-2 : Int) + ((xs.length + 2 : Nat) : Int)).toNat = xs.length := by omega
  rw [h3]
  have h4 : (xs ++ [a, b])[xs.length]? = some a := by
    rw [List.getElem?_append_right (le_refl xs.length)]
    simp
  simp [h4]

theorem pyGet_cons_zero {α : Type} (x : α) (xs : List α) :
    pyGet (x :: xs) 0 = .ok x := by
  unfold pyGet pyIdx
  rw [if_pos (by norm_num)]
  rw [if_pos (by push_cast [List.length_cons]; omega)]
  simp

/-! C8 and C9: construction precondition and the stop flag. -/

/-- C8: if a StimulationAction list is supplied whose length differs from
the ROI count, Monitor construction fails with the configuration error
`ValueError("You should have one interactor per ROI")` and no TrackingUnits
are built, whatever the yoke argument. -/
theorem stimulator_count_mismatch_fails (rois : List ROI) (stims : List Nat)
    (yoke : Option (List (Int × Int))) (fresh : Nat)
    (h : stims.length ≠ rois.length) :
    monitorInitUnits (some rois) (some stims) yoke fresh =
      .error (.valueError "You should have one interactor per ROI") := by
  simp [monitorInitUnits, h]

/-- Witness for C8: two stimulators against one ROI. -/
theorem stimulator_count_mismatch_fails_witness :
    ([0, 1] : List Nat).length ≠ ([⟨1⟩] : List ROI).length ∧
    monitorInitUnits (some [⟨1⟩]) (some [0, 1]) none 0 =
      .error (.valueError "You should have one interactor per ROI") :=
  ⟨by decide, stimulator_count_mismatch_fails [⟨1⟩] [0, 1] none 0 (by decide)⟩

/-- C9: for every Monitor state, `stop()` sets `force_stop` to true, leaves
every other Monitor field unchanged, and returns nothing (`None`). -/
theorem stop_only_sets_force_stop (m : Monitor) :
    m.stop.1.forceStop = true ∧
    m.stop.1.lastPositions = m.lastPositions ∧
    m.stop.1.lastFrameIdx = m.lastFrameIdx ∧
    m.stop.1.lastTimeStamp = m.lastTimeStamp ∧
    m.stop.1.isRunning = m.isRunning ∧
    m.stop.1.frameBuffer = m.frameBuffer ∧
    m.stop.1.lastT = m.lastT ∧
    m.stop.2 = () := by
  simp [Monitor.stop]

/-! C4: the single-slot busy guard of the asynchronous dispatcher. -/

/-- C4: while the previous background action is still alive, a new dispatch
request leaves the dispatcher state completely unchanged (nothing started,
nothing queued); once the background action has completed, the next
dispatch starts exactly one new background execution. -/
theorem async_busy_guard (s : BaseInteractor) (kw kw' : Params)
    (hbusy : s.alive = true) (htgt : s.hasTarget = true) :
    BaseInteractor._interact_async s kw = .ok s ∧
    BaseInteractor._interact_async s.completeBackground kw' =
      .ok { s with alive := true, started := s.started + 1, lastKwargs := some kw' } := by
  constructor
  · simp [BaseInteractor._interact_async, hbusy]
  · simp [BaseInteractor._interact_async, BaseInteractor.completeBackground, htgt]

/-- Witness for C4: a busy dispatcher with a defined target drops the
request; after completion the next request starts execution number one. -/
theorem async_busy_guard_witness :
    (⟨true, true, none, 0⟩ : BaseInteractor).alive = true ∧
    (⟨true, true, none, 0⟩ : BaseInteractor).hasTarget = true ∧
    BaseInteractor._interact_async ⟨true, true, none, 0⟩ [] = .ok ⟨true, true, none, 0⟩ ∧
    BaseInteractor._interact_async (BaseInteractor.completeBackground ⟨true, true, none, 0⟩) [] =
      .ok ⟨true, true, some [], 1⟩ := by
  have h := async_busy_guard ⟨true, true, none, 0⟩ [] [] rfl rfl
  exact ⟨rfl, rfl, h.1, h.2⟩

/-! C10: the returned dictionary of `__call__`. -/

/-- With `_target` defined, `_interact_async` always succeeds (either
dropping the request or starting the process). -/
theorem interact_async_ok (s : BaseInteractor) (kw : Params)
    (h : s.hasTarget = true) :
    ∃ s2, BaseInteractor._interact_async s kw = .ok s2 := by
  unfold BaseInteractor._interact_async
  by_cases ha : s.alive <;> simp [ha, h]

/-- C10: with a tracker bound, both `__call__` variants return the
decision-step dictionary augmented with `"interact"` mapped to the boolean
decision, and the asynchronous variant returns the same dictionary whatever
the busy state of the background slot (in particular when the dispatch is
dropped). -/
theorem call_returns_decision_params (b : Bool) (result : Params)
    (s s' : BaseInteractor) (ht : s.hasTarget = true) (ht' : s'.hasTarget = true) :
    BaseInteractorSync.call true (b, result) =
      .ok (setKey result "interact" (.bool b), b) ∧
    (∃ s2, BaseInteractor.call true (b, result) s =
      .ok (setKey result "interact" (.bool b), s2)) ∧
    Except.map Prod.fst (BaseInteractor.call true (b, result) s) =
      Except.map Prod.fst (BaseInteractor.call true (b, result) s') := by
  have key : ∀ (w : BaseInteractor), w.hasTarget = true →
      ∃ s2, BaseInteractor.call true (b, result) w =
        .ok (setKey result "interact" (.bool b), s2) := by
    intro w hw
    cases b with
    | false => exact ⟨w, by simp [BaseInteractor.call, pure, Except.pure, bind, Except.bind]⟩
    | true =>
      obtain ⟨s2, hs2⟩ := interact_async_ok w result hw
      exact ⟨s2, by simp [BaseInteractor.call, hs2, pure, Except.pure, bind, Except.bind]⟩
  obtain ⟨s2, h2⟩ := key s ht
  obtain ⟨s3, h3⟩ := key s' ht'
  refine ⟨by simp [BaseInteractorSync.call], ⟨s2, h2⟩, ?_⟩
  rw [h2, h3]
  rfl

/-- Witness for C10: a positive decision against a busy dispatcher and a
free one: same returned dictionary. -/
theorem call_returns_decision_params_witness :
    (⟨true, true, none, 0⟩ : BaseInteractor).hasTarget = true ∧
    (⟨false, true, none, 0⟩ : BaseInteractor).hasTarget = true ∧
    BaseInteractorSync.call true (true, [("channel", .int 7)]) =
      .ok ([("channel", .int 7), ("interact", .bool true)], true) ∧
    (∃ s2, BaseInteractor.call true (true, [("channel", .int 7)]) ⟨true, true, none, 0⟩ =
      .ok ([("channel", .int 7), ("interact", .bool true)], s2)) ∧
    Except.map Prod.fst
        (BaseInteractor.call true (true, [("channel", .int 7)]) ⟨true, true, none, 0⟩) =
      Except.map Prod.fst
        (BaseInteractor.call true (true, [("channel", .int 7)]) ⟨false, true, none, 0⟩) := by
  have h := call_returns_decision_params true [("channel", .int 7)]
    ⟨true, true, none, 0⟩ ⟨false, true, none, 0⟩ rfl rfl
  exact ⟨rfl, rfl, h.1, h.2.1, h.2.2⟩

/-! Infrastructure for the yoke-resolution proofs (C1, C2, C3). -/

/-- A 1-based ROI id is valid for `n` ROIs when it lies in `1..n`. -/
abbrev validId (n : Nat) (i : Int) : Prop := 1 ≤ i ∧ i ≤ (n : Int)

/-- The 0-based list index of a 1-based ROI id. -/
def idIdx (i : Int) : Nat := (i - 1).toNat

/-- An id `i` such that the index `i - 1` falls outside even CPython's
negative-index range for a list of length `n`, so that indexing raises. -/
abbrev badId (n : Nat) (i : Int) : Prop := (n : Int) < i ∨ i ≤ -(n : Int)

theorem idIdx_lt {n : Nat} {i : Int} (h : validId n i) : idIdx i < n := by
  obtain ⟨h1, h2⟩ := h
  unfold idIdx
  omega

theorem idIdx_inj {n : Nat} {i j : Int} (hi : validId n i) (hj : validId n j)
    (h : idIdx i = idIdx j) : i = j := by
  obtain ⟨hi1, hi2⟩ := hi
  obtain ⟨hj1, hj2⟩ := hj
  unfold idIdx at h
  omega

theorem idIdx_eq_iff {n : Nat} {i : Int} {j : Nat} (hi : validId n i) :
    idIdx i = j ↔ i = (j : Int) + 1 := by
  obtain ⟨hi1, hi2⟩ := hi
  unfold idIdx
  omega

theorem pyIdx_validId {n : Nat} {i : Int} (h : validId n i) :
    pyIdx n (i - 1) = .ok (idIdx i) := by
  obtain ⟨h1, h2⟩ := h
  unfold pyIdx idIdx
  rw [if_pos (by omega : (0 : Int) ≤ i - 1)]
  rw [if_pos (by omega : i - 1 < (n : Int))]

theorem pyGet_validId {α : Type} {xs : List α} {i : Int} {a : α}
    (h : validId xs.length i) (ha : xs[idIdx i]? = some a) :
    pyGet xs (i - 1) = .ok a := by
  unfold pyGet
  rw [pyIdx_validId h]
  show (match xs[idIdx i]? with
        | some a => (.ok a : Except PyErr α)
        | none => .error .indexError) = .ok a
  rw [ha]

theorem pySet_validId {α : Type} {xs : List α} {i : Int} (a : α)
    (h : validId xs.length i) :
    pySet xs (i - 1) a = .ok (xs.set (idIdx i) a) := by
  unfold pySet
  rw [pyIdx_validId h]

theorem pyIdx_ok_not_bad {n : Nat} {i : Int} {j : Nat}
    (h : pyIdx n (i - 1) = .ok j) : ¬ badId n i := by
  unfold pyIdx at h
  unfold badId
  by_cases h0 : (0 : Int) ≤ i - 1
  · rw [if_pos h0] at h
    by_cases h1 : i - 1 < (n : Int)
    · omega
    · rw [if_neg h1] at h
      exact Except.noConfusion h
  · rw [if_neg h0] at h
    by_cases h2 : -(n : Int) ≤ i - 1
    · omega
    · rw [if_neg h2] at h
      exact Except.noConfusion h

theorem pyGet_ok_not_bad {α : Type} {xs : List α} {i : Int} {a : α}
    (h : pyGet xs (i - 1) = .ok a) : ¬ badId xs.length i := by
  unfold pyGet at h
  cases hj : pyIdx xs.length (i - 1) with
  | error e => rw [hj] at h; exact Except.noConfusion h
  | ok j => exact pyIdx_ok_not_bad hj

theorem pySet_ok_length {α : Type} {xs ys : List α} {i : Int} {a : α}
    (h : pySet xs i a = .ok ys) : ys.length = xs.length := by
  unfold pySet at h
  cases hj : pyIdx xs.length i with
  | error e => rw [hj] at h; exact Except.noConfusion h
  | ok j =>
    rw [hj] at h
    cases h
    exact List.length_set xs j a

/-- Slot `j` of the unit array holds a (non-`None`) unit. -/
def someAt (arr : List (Option TrackingUnit)) (j : Nat) : Prop :=
  ∃ u, arr[j]? = some (some u)

theorem someAt_set_some {arr : List (Option TrackingUnit)} {j k : Nat}
    {v : TrackingUnit} (hk : k < arr.length) (h : someAt arr j) :
    someAt (arr.set k (some v)) j := by
  obtain ⟨u, hu⟩ := h
  by_cases hkj : k = j
  · subst hkj
    exact ⟨v, List.getElem?_set_eq_of_lt _ hk⟩
  · exact ⟨u, by rw [List.getElem?_set_ne hkj, hu]⟩

theorem yokeLoop1_cons_skip {rois : List ROI} {stims : List Nat} {f : Int}
    {fs : List Int} {arr : List (Option TrackingUnit)} {fresh : Nat}
    {u : TrackingUnit} (hg : pyGet arr (f - 1) = .ok (some u)) :
    yokeLoop1 rois stims (f :: fs) arr fresh = yokeLoop1 rois stims fs arr fresh := by
  simp only [yokeLoop1, bind, Except.bind, hg]

theorem yokeLoop1_cons_build {rois : List ROI} {stims : List Nat} {f : Int}
    {fs : List Int} {arr arr' : List (Option TrackingUnit)} {fresh : Nat}
    {r : ROI} {s : Nat}
    (hg : pyGet arr (f - 1) = .ok none)
    (hr : pyGet rois (f - 1) = .ok r)
    (hs : pyGet stims (f - 1) = .ok s)
    (hst : pySet arr (f - 1) (some ⟨r, some s, fresh, some fresh⟩) = .ok arr') :
    yokeLoop1 rois stims (f :: fs) arr fresh =
      yokeLoop1 rois stims fs arr' (fresh + 1) := by
  simp only [yokeLoop1, bind, Except.bind, hg, hr, hs, mkTrackingUnit,
    Option.getD_none, hst]

theorem yokeLoop1_ok_elim {rois : List ROI} {stims : List Nat} {f : Int}
    {fs : List Int} {arr : List (Option TrackingUnit)} {fresh : Nat}
    {out : List (Option TrackingUnit) × Nat}
    (h : yokeLoop1 rois stims (f :: fs) arr fresh = .ok out) :
    ∃ c, pyGet arr (f - 1) = .ok c ∧
      ((∃ u, c = some u ∧ yokeLoop1 rois stims fs arr fresh = .ok out) ∨
       (c = none ∧ ∃ r s arr',
          pyGet rois (f - 1) = .ok r ∧ pyGet stims (f - 1) = .ok s ∧
          pySet arr (f - 1) (some ⟨r, some s, fresh, some fresh⟩) = .ok arr' ∧
          yokeLoop1 rois stims fs arr' (fresh + 1) = .ok out)) := by
  cases hg : pyGet arr (f - 1) with
  | error e =>
    simp only [yokeLoop1, bind, Except.bind, hg] at h
    exact Except.noConfusion h
  | ok c =>
    refine ⟨c, rfl, ?_⟩
    cases c with
    | some u =>
      left
      refine ⟨u, rfl, ?_⟩
      rw [yokeLoop1_cons_skip hg] at h
      exact h
    | none =>
      right
      refine ⟨rfl, ?_⟩
      cases hr : pyGet rois (f - 1) with
      | error e =>
        simp only [yokeLoop1, bind, Except.bind, hg, hr] at h
        exact Except.noConfusion h
      | ok r =>
        cases hs : pyGet stims (f - 1) with
        | error e =>
          simp only [yokeLoop1, bind, Except.bind, hg, hr, hs] at h
          exact Except.noConfusion h
        | ok s =>
          cases hst : pySet arr (f - 1) (some ⟨r, some s, fresh, some fresh⟩) with
          | error e =>
            simp only [yokeLoop1, bind, Except.bind, hg, hr, hs, mkTrackingUnit,
              Option.getD_none, hst] at h
            exact Except.noConfusion h
          | ok arr' =>
            rw [yokeLoop1_cons_build hg hr hs hst] at h
            exact ⟨r, s, arr', rfl, rfl, hst, h⟩

theorem yokeLoop1_not_bad (rois : List ROI) (stims : List Nat) :
    ∀ (vals : List Int) (arr : List (Option TrackingUnit)) (fresh : Nat)
      (out : List (Option TrackingUnit) × Nat),
      yokeLoop1 rois stims vals arr fresh = .ok out →
      ∀ v ∈ vals, ¬ badId arr.length v := by
  intro vals
  induction vals with
  | nil =>
    intro arr fresh out h v hv
    cases hv
  | cons f fs ih =>
    intro arr fresh out h v hv
    obtain ⟨c, hg, hrest⟩ := yokeLoop1_ok_elim h
    rcases List.mem_cons.mp hv with rfl | hv'
    · exact pyGet_ok_not_bad hg
    · rcases hrest with ⟨u, _, htail⟩ | ⟨_, r, s, arr', hr, hs, hst, htail⟩
      · exact ih arr fresh out htail v hv'
      · have hlen := pySet_ok_length hst
        have hres := ih arr' (fresh + 1) out htail v hv'
        rw [hlen] at hres
        exact hres

theorem yokeLoop2_cons_step {rois : List ROI} {stims : List Nat} {y f : Int}
    {ps : List (Int × Int)} {arr arr' : List (Option TrackingUnit)} {fresh : Nat}
    {r : ROI} {s : Nat} {focal : TrackingUnit}
    (hr : pyGet rois (y - 1) = .ok r)
    (hs : pyGet stims (y - 1) = .ok s)
    (hg : pyGet arr (f - 1) = .ok (some focal))
    (hst : pySet arr (y - 1) (some ⟨r, some s, fresh, some focal.tracker⟩) = .ok arr') :
    yokeLoop2 rois stims ((y, f) :: ps) arr fresh =
      yokeLoop2 rois stims ps arr' (fresh + 1) := by
  simp only [yokeLoop2, bind, Except.bind, hr, hs, hg, mkTrackingUnit,
    Option.getD_some, hst]

theorem yokeLoop2_ok_elim {rois : List ROI} {stims : List Nat} {y f : Int}
    {ps : List (Int × Int)} {arr : List (Option TrackingUnit)} {fresh : Nat}
    {out : List (Option TrackingUnit) × Nat}
    (h : yokeLoop2 rois stims ((y, f) :: ps) arr fresh = .ok out) :
    ∃ r s focal arr',
      pyGet rois (y - 1) = .ok r ∧ pyGet stims (y - 1) = .ok s ∧
      pyGet arr (f - 1) = .ok (some focal) ∧
      pySet arr (y - 1) (some ⟨r, some s, fresh, some focal.tracker⟩) = .ok arr' ∧
      yokeLoop2 rois stims ps arr' (fresh + 1) = .ok out := by
  cases hr : pyGet rois (y - 1) with
  | error e =>
    simp only [yokeLoop2, bind, Except.bind, hr] at h
    exact Except.noConfusion h
  | ok r =>
    cases hs : pyGet stims (y - 1) with
    | error e =>
      simp only [yokeLoop2, bind, Except.bind, hr, hs] at h
      exact Except.noConfusion h
    | ok s =>
      cases hg : pyGet arr (f - 1) with
      | error e =>
        simp only [yokeLoop2, bind, Except.bind, hr, hs, hg] at h
        exact Except.noConfusion h
      | ok c =>
        cases c with
        | none =>
          simp only [yokeLoop2, bind, Except.bind, hr, hs, hg] at h
          exact Except.noConfusion h
        | some focal =>
          cases hst : pySet arr (y - 1) (some ⟨r, some s, fresh, some focal.tracker⟩) with
          | error e =>
            simp only [yokeLoop2, bind, Except.bind, hr, hs, hg, mkTrackingUnit,
              Option.getD_some, hst] at h
            exact Except.noConfusion h
          | ok arr' =>
            rw [yokeLoop2_cons_step hr hs hg hst] at h
            exact ⟨r, s, focal, arr', rfl, rfl, rfl, hst, h⟩

theorem yokeLoop2_not_bad (rois : List ROI) (stims : List Nat) :
    ∀ (ps : List (Int × Int)) (arr : List (Option TrackingUnit)) (fresh : Nat)
      (out : List (Option TrackingUnit) × Nat),
      yokeLoop2 rois stims ps arr fresh = .ok out →
      ∀ p ∈ ps, ¬ badId rois.length p.1 ∧ ¬ badId arr.length p.2 := by
  intro ps
  induction ps with
  | nil =>
    intro arr fresh out h p hp
    cases hp
  | cons q qs ih =>
    intro arr fresh out h p hp
    obtain ⟨y, f⟩ := q
    obtain ⟨r, s, focal, arr', hr, hs, hg, hst, htail⟩ := yokeLoop2_ok_elim h
    rcases List.mem_cons.mp hp with rfl | hp'
    · exact ⟨pyGet_ok_not_bad hr, pyGet_ok_not_bad hg⟩
    · have hlen := pySet_ok_length hst
      have hres := ih arr' (fresh + 1) out htail p hp'
      rw [hlen] at hres
      exact hres

/-- Successful yoke construction decomposes into successful runs of the two
loops followed by the fill, with the stimulator/ROI length precondition. -/
theorem monitorInitUnits_yoke_elim {rois : List ROI} {stims : List Nat}
    {yk : List (Int × Int)} {fresh : Nat} {units : List TrackingUnit}
    (h : monitorInitUnits (some rois) (some stims) (some yk) fresh = .ok units) :
    stims.length = rois.length ∧
    ∃ arr1 fresh1 arr2 fresh2,
      yokeLoop1 rois stims (yk.map Prod.snd) (List.replicate rois.length none) fresh =
        .ok (arr1, fresh1) ∧
      yokeLoop2 rois stims yk arr1 fresh1 = .ok (arr2, fresh2) ∧
      units = (yokeFill arr2 rois stims fresh2).1 := by
  by_cases hlen : stims.length = rois.length
  · refine ⟨hlen, ?_⟩
    simp only [monitorInitUnits, if_pos hlen, bind, Except.bind] at h
    cases h1 : yokeLoop1 rois stims (yk.map Prod.snd)
        (List.replicate rois.length none) fresh with
    | error e =>
      simp only [h1] at h
      exact Except.noConfusion h
    | ok o1 =>
      obtain ⟨arr1, fresh1⟩ := o1
      simp only [h1] at h
      cases h2 : yokeLoop2 rois stims yk arr1 fresh1 with
      | error e =>
        simp only [h2] at h
        exact Except.noConfusion h
      | ok o2 =>
        obtain ⟨arr2, fresh2⟩ := o2
        simp only [h2] at h
        injection h with h'
        exact ⟨arr1, fresh1, arr2, fresh2, rfl, h2, h'.symm⟩
  · simp only [monitorInitUnits, if_neg hlen] at h
    exact Except.noConfusion h

/-- Forward form of the successful yoke construction. -/
theorem monitorInitUnits_yoke_eq {rois : List ROI} {stims : List Nat}
    {yk : List (Int × Int)} {fresh fresh1 fresh2 : Nat}
    {arr1 arr2 : List (Option TrackingUnit)}
    (hlen : stims.length = rois.length)
    (h1 : yokeLoop1 rois stims (yk.map Prod.snd)
        (List.replicate rois.length none) fresh = .ok (arr1, fresh1))
    (h2 : yokeLoop2 rois stims yk arr1 fresh1 = .ok (arr2, fresh2)) :
    monitorInitUnits (some rois) (some stims) (some yk) fresh =
      .ok (yokeFill arr2 rois stims fresh2).1 := by
  simp only [monitorInitUnits, if_pos hlen, bind, Except.bind, h1, h2]

/-! C3: unknown ids in the yoke mapping. -/

/-- C3 (amended): a yoke mapping referencing an id `i` with `i > n` or
`i ≤ -n` (no corresponding slot even under CPython negative indexing) makes
Monitor construction fail — an uncaught `IndexError`, construction-time and
fatal — returning no Monitor. (Ids in `-n < i ≤ 0`, which also correspond
to no ROI, are NOT rejected: see the counterexample.) -/
theorem yoke_unknown_id_fails (rois : List ROI) (stims : List Nat)
    (yk : List (Int × Int)) (fresh : Nat)
    (h : ∃ p ∈ yk, badId rois.length p.1 ∨ badId rois.length p.2) :
    exceptOk (monitorInitUnits (some rois) (some stims) (some yk) fresh) = false := by
  obtain ⟨p, hp, hbad⟩ := h
  cases hok : monitorInitUnits (some rois) (some stims) (some yk) fresh with
  | error e => rfl
  | ok units =>
    exfalso
    obtain ⟨hlen, arr1, fresh1, arr2, fresh2, h1, h2, hu⟩ :=
      monitorInitUnits_yoke_elim hok
    rcases hbad with hbad1 | hbad2
    · exact (yokeLoop2_not_bad rois stims yk arr1 fresh1 (arr2, fresh2) h2 p hp).1 hbad1
    · have hnb := yokeLoop1_not_bad rois stims (yk.map Prod.snd)
        (List.replicate rois.length none) fresh (arr1, fresh1) h1 p.2
        (List.mem_map_of_mem Prod.snd hp)
      rw [List.length_replicate] at hnb
      exact hnb hbad2

/-- Witness for C3 (amended): with one ROI, the mapping `{"1": "2"}`
references focal id 2 > 1 and construction fails. -/
theorem yoke_unknown_id_fails_witness :
    (∃ p ∈ [((1 : Int), (2 : Int))], badId 1 p.1 ∨ badId 1 p.2) ∧
    exceptOk (monitorInitUnits (some [⟨1⟩]) (some [7]) (some [(1, 2)]) 0) = false := by
  have hbad : ∃ p ∈ [((1 : Int), (2 : Int))], badId 1 p.1 ∨ badId 1 p.2 :=
    ⟨(1, 2), by simp, Or.inr (by norm_num [badId])⟩
  exact ⟨hbad, yoke_unknown_id_fails [⟨1⟩] [7] [(1, 2)] 0 hbad⟩

/-- Counterexample for C3 as stated: the yoke mapping `{"1": "0"}` over one
ROI references focal id 0, which corresponds to no ROI (ids are 1-based),
yet Monitor construction SUCCEEDS: CPython resolves the index `0 - 1 = -1`
to the last list slot, so the unit is silently wired with ROI 1 as its own
focal instead of any error being raised. -/
theorem yoke_unknown_id_accepted_cx :
    monitorInitUnits (some [⟨1⟩]) (some [5]) (some [(1, 0)]) 0 =
      .ok [⟨⟨1⟩, some 5, 1, some 0⟩] := by
  rfl

/-- Constructive specification of the first yoke loop under valid ids:
it succeeds, preserves length and occupied slots, occupies the slot of
every value, and leaves every other slot untouched. -/
theorem yokeLoop1_spec (rois : List ROI) (stims : List Nat) :
    ∀ (vals : List Int) (arr : List (Option TrackingUnit)) (fresh : Nat),
      arr.length = rois.length → stims.length = rois.length →
      (∀ v ∈ vals, validId rois.length v) →
      ∃ arr' fresh',
        yokeLoop1 rois stims vals arr fresh = .ok (arr', fresh') ∧
        arr'.length = arr.length ∧
        (∀ j, someAt arr j → someAt arr' j) ∧
        (∀ v ∈ vals, someAt arr' (idIdx v)) ∧
        (∀ j, (∀ v ∈ vals, idIdx v ≠ j) → arr'[j]? = arr[j]?) := by
  intro vals
  induction vals with
  | nil =>
    intro arr fresh hlen hslen hval
    exact ⟨arr, fresh, rfl, rfl, fun j h => h,
      fun v hv => absurd hv (List.not_mem_nil v), fun j _ => rfl⟩
  | cons f fs ih =>
    intro arr fresh hlen hslen hval
    have hvf : validId rois.length f := hval f (List.mem_cons_self f fs)
    have hvf' : validId arr.length f := by rw [hlen]; exact hvf
    have hlt : idIdx f < arr.length := idIdx_lt hvf'
    have hex : ∃ c, arr[idIdx f]? = some c := by
      rw [List.getElem?_eq_getElem hlt]
      exact ⟨_, rfl⟩
    obtain ⟨c, hc⟩ := hex
    have hpg : pyGet arr (f - 1) = .ok c := pyGet_validId hvf' hc
    cases c with
    | some u =>
      obtain ⟨arr', fresh', heq, hlen', hmono, hvals, hout⟩ :=
        ih arr fresh hlen hslen (fun v hv => hval v (List.mem_cons_of_mem f hv))
      refine ⟨arr', fresh', ?_, hlen', hmono, ?_, ?_⟩
      · rw [yokeLoop1_cons_skip hpg]
        exact heq
      · intro v hv
        rcases List.mem_cons.mp hv with rfl | hv'
        · exact hmono _ ⟨u, hc⟩
        · exact hvals v hv'
      · intro j hj
        exact hout j (fun v hv => hj v (List.mem_cons_of_mem f hv))
    | none =>
      have hltr : idIdx f < rois.length := idIdx_lt hvf
      have hlts : idIdx f < stims.length := by rw [hslen]; exact idIdx_lt hvf
      have hr : pyGet rois (f - 1) = .ok rois[idIdx f] :=
        pyGet_validId hvf (List.getElem?_eq_getElem hltr)
      have hs : pyGet stims (f - 1) = .ok stims[idIdx f] :=
        pyGet_validId (by rw [hslen]; exact hvf) (List.getElem?_eq_getElem hlts)
      set tu : TrackingUnit :=
        ⟨rois[idIdx f], some stims[idIdx f], fresh, some fresh⟩ with htu
      have hst : pySet arr (f - 1) (some tu) = .ok (arr.set (idIdx f) (some tu)) :=
        pySet_validId _ hvf'
      have hlen2 : (arr.set (idIdx f) (some tu)).length = rois.length := by
        rw [List.length_set]
        exact hlen
      obtain ⟨arr', fresh', heq, hlen', hmono, hvals, hout⟩ :=
        ih (arr.set (idIdx f) (some tu)) (fresh + 1) hlen2 hslen
          (fun v hv => hval v (List.mem_cons_of_mem f hv))
      refine ⟨arr', fresh', ?_, ?_, ?_, ?_, ?_⟩
      · rw [yokeLoop1_cons_build hpg hr hs hst]
        exact heq
      · rw [hlen', List.length_set]
      · intro j hj
        exact hmono j (someAt_set_some hlt hj)
      · intro v hv
        rcases List.mem_cons.mp hv with rfl | hv'
        · exact hmono _ ⟨tu, List.getElem?_set_eq_of_lt _ hlt⟩
        · exact hvals v hv'
      · intro j hj
        rw [hout j (fun v hv => hj v (List.mem_cons_of_mem f hv))]
        exact List.getElem?_set_ne (hj f (List.mem_cons_self f fs))

/-- Constructive specification of the second yoke loop under valid ids,
provided every focal slot it reads is occupied: it succeeds, preserves
length and occupied slots, and leaves every non-key slot untouched. -/
theorem yokeLoop2_spec (rois : List ROI) (stims : List Nat) :
    ∀ (ps : List (Int × Int)) (arr : List (Option TrackingUnit)) (fresh : Nat),
      arr.length = rois.length → stims.length = rois.length →
      (∀ p ∈ ps, validId rois.length p.1 ∧ validId rois.length p.2) →
      (∀ p ∈ ps, someAt arr (idIdx p.2)) →
      ∃ arr' fresh',
        yokeLoop2 rois stims ps arr fresh = .ok (arr', fresh') ∧
        arr'.length = arr.length ∧
        (∀ j, someAt arr j → someAt arr' j) ∧
        (∀ j, (∀ p ∈ ps, idIdx p.1 ≠ j) → arr'[j]? = arr[j]?) := by
  intro ps
  induction ps with
  | nil =>
    intro arr fresh hlen hslen hval hsome
    exact ⟨arr, fresh, rfl, rfl, fun j h => h, fun j _ => rfl⟩
  | cons q qs ih =>
    intro arr fresh hlen hslen hval hsome
    obtain ⟨y, f⟩ := q
    have hvy : validId rois.length y := (hval (y, f) (List.mem_cons_self _ _)).1
    have hvf : validId rois.length f := (hval (y, f) (List.mem_cons_self _ _)).2
    have hvy' : validId arr.length y := by rw [hlen]; exact hvy
    have hvf' : validId arr.length f := by rw [hlen]; exact hvf
    have hlty : idIdx y < arr.length := idIdx_lt hvy'
    have hltyr : idIdx y < rois.length := idIdx_lt hvy
    have hltys : idIdx y < stims.length := by rw [hslen]; exact idIdx_lt hvy
    obtain ⟨focal, hfoc⟩ := hsome (y, f) (List.mem_cons_self _ _)
    have hr : pyGet rois (y - 1) = .ok rois[idIdx y] :=
      pyGet_validId hvy (List.getElem?_eq_getElem hltyr)
    have hs : pyGet stims (y - 1) = .ok stims[idIdx y] :=
      pyGet_validId (by rw [hslen]; exact hvy) (List.getElem?_eq_getElem hltys)
    have hg : pyGet arr (f - 1) = .ok (some focal) := pyGet_validId hvf' hfoc
    set tu : TrackingUnit :=
      ⟨rois[idIdx y], some stims[idIdx y], fresh, some focal.tracker⟩ with htu
    have hst : pySet arr (y - 1) (some tu) = .ok (arr.set (idIdx y) (some tu)) :=
      pySet_validId _ hvy'
    have hlen2 : (arr.set (idIdx y) (some tu)).length = rois.length := by
      rw [List.length_set]
      exact hlen
    obtain ⟨arr', fresh', heq, hlen', hmono, hout⟩ :=
      ih (arr.set (idIdx y) (some tu)) (fresh + 1) hlen2 hslen
        (fun p hp => hval p (List.mem_cons_of_mem _ hp))
        (fun p hp => someAt_set_some hlty (hsome p (List.mem_cons_of_mem _ hp)))
    refine ⟨arr', fresh', ?_, ?_, ?_, ?_⟩
    · rw [yokeLoop2_cons_step hr hs hg hst]
      exact heq
    · rw [hlen', List.length_set]
    · intro j hj
      exact hmono j (someAt_set_some hlty hj)
    · intro j hj
      rw [hout j (fun p hp => hj p (List.mem_cons_of_mem _ hp))]
      exact List.getElem?_set_ne (hj (y, f) (List.mem_cons_self _ _))

/-- Processing a concatenated yoke list is processing the two pieces in
sequence. -/
theorem yokeLoop2_append (rois : List ROI) (stims : List Nat) :
    ∀ (l1 l2 : List (Int × Int)) (arr : List (Option TrackingUnit)) (fresh : Nat),
      yokeLoop2 rois stims (l1 ++ l2) arr fresh =
        (yokeLoop2 rois stims l1 arr fresh).bind
          (fun o => yokeLoop2 rois stims l2 o.1 o.2) := by
  intro l1
  induction l1 with
  | nil =>
    intro l2 arr fresh
    rfl
  | cons q qs ih =>
    intro l2 arr fresh
    obtain ⟨y, f⟩ := q
    cases hr : pyGet rois (y - 1) with
    | error e =>
      simp only [List.cons_append, yokeLoop2, bind, Except.bind, hr]
    | ok r =>
      cases hs : pyGet stims (y - 1) with
      | error e =>
        simp only [List.cons_append, yokeLoop2, bind, Except.bind, hr, hs]
      | ok s =>
        cases hg : pyGet arr (f - 1) with
        | error e =>
          simp only [List.cons_append, yokeLoop2, bind, Except.bind, hr, hs, hg]
        | ok c =>
          cases c with
          | none =>
            simp only [List.cons_append, yokeLoop2, bind, Except.bind, hr, hs, hg]
          | some focal =>
            cases hst : pySet arr (y - 1) (some ⟨r, some s, fresh, some focal.tracker⟩) with
            | error e =>
              simp only [List.cons_append, yokeLoop2, bind, Except.bind, hr, hs, hg,
                mkTrackingUnit, Option.getD_some, hst]
            | ok arr' =>
              rw [List.cons_append, yokeLoop2_cons_step hr hs hg hst,
                yokeLoop2_cons_step hr hs hg hst, ih]

theorem yokeFill_cons_some (u : TrackingUnit) (arr : List (Option TrackingUnit))
    (r : ROI) (rs : List ROI) (s : Nat) (ss : List Nat) (fresh : Nat) :
    yokeFill (some u :: arr) (r :: rs) (s :: ss) fresh =
      (u :: (yokeFill arr rs ss fresh).1, (yokeFill arr rs ss fresh).2) := rfl

theorem yokeFill_cons_none (arr : List (Option TrackingUnit))
    (r : ROI) (rs : List ROI) (s : Nat) (ss : List Nat) (fresh : Nat) :
    yokeFill (none :: arr) (r :: rs) (s :: ss) fresh =
      ((⟨r, some s, fresh, some fresh⟩ : TrackingUnit) ::
          (yokeFill arr rs ss (fresh + 1)).1,
        (yokeFill arr rs ss (fresh + 1)).2) := rfl

/-- Length preservation of the fill loop (under equal input lengths). -/
theorem yokeFill_length :
    ∀ (arr : List (Option TrackingUnit)) (rois : List ROI) (stims : List Nat)
      (fresh : Nat),
      arr.length = rois.length → arr.length = stims.length →
      (yokeFill arr rois stims fresh).1.length = arr.length := by
  intro arr
  induction arr with
  | nil =>
    intro rois stims fresh h1 h2
    rfl
  | cons a arr ih =>
    intro rois stims fresh h1 h2
    cases rois with
    | nil => simp at h1
    | cons r rs =>
      cases stims with
      | nil => simp at h2
      | cons s ss =>
        have h1' : arr.length = rs.length := by simpa using h1
        have h2' : arr.length = ss.length := by simpa using h2
        cases a with
        | some u =>
          rw [yokeFill_cons_some]
          simp only [List.length_cons, ih rs ss fresh h1' h2']
        | none =>
          rw [yokeFill_cons_none]
          simp only [List.length_cons, ih rs ss (fresh + 1) h1' h2']

/-- Per-slot behavior of the fill loop: an occupied slot keeps its unit; an
empty slot receives a direct pairing of its own ROI and stimulator whose
action observes the unit's own fresh tracker. -/
theorem yokeFill_getElem :
    ∀ (arr : List (Option TrackingUnit)) (rois : List ROI) (stims : List Nat)
      (fresh : Nat) (j : Nat),
      arr.length = rois.length → arr.length = stims.length →
      ((∀ u, arr[j]? = some (some u) → (yokeFill arr rois stims fresh).1[j]? = some u) ∧
       (arr[j]? = some none →
         ∃ r s fr, rois[j]? = some r ∧ stims[j]? = some s ∧
           (yokeFill arr rois stims fresh).1[j]? =
             some ⟨r, some s, fr, some fr⟩)) := by
  intro arr
  induction arr with
  | nil =>
    intro rois stims fresh j h1 h2
    constructor
    · intro u hu
      simp at hu
    · intro hu
      simp at hu
  | cons a arr ih =>
    intro rois stims fresh j h1 h2
    cases rois with
    | nil => simp at h1
    | cons r rs =>
      cases stims with
      | nil => simp at h2
      | cons s ss =>
        have h1' : arr.length = rs.length := by simpa using h1
        have h2' : arr.length = ss.length := by simpa using h2
        cases j with
        | zero =>
          constructor
          · intro u hu
            simp only [List.getElem?_cons_zero, Option.some.injEq] at hu
            subst hu
            rw [yokeFill_cons_some]
            simp
          · intro hu
            simp only [List.getElem?_cons_zero, Option.some.injEq] at hu
            subst hu
            rw [yokeFill_cons_none]
            exact ⟨r, s, fresh, by simp, by simp, by simp⟩
        | succ j =>
          constructor
          · intro u hu
            simp only [List.getElem?_cons_succ] at hu
            cases a with
            | some w =>
              rw [yokeFill_cons_some]
              simp only [List.getElem?_cons_succ]
              exact (ih rs ss fresh j h1' h2').1 u hu
            | none =>
              rw [yokeFill_cons_none]
              simp only [List.getElem?_cons_succ]
              exact (ih rs ss (fresh + 1) j h1' h2').1 u hu
          · intro hu
            simp only [List.getElem?_cons_succ] at hu
            cases a with
            | some w =>
              rw [yokeFill_cons_some]
              obtain ⟨r', s', fr, hr', hs', hfill⟩ := (ih rs ss fresh j h1' h2').2 hu
              exact ⟨r', s', fr, by simpa using hr', by simpa using hs',
                by simpa using hfill⟩
            | none =>
              rw [yokeFill_cons_none]
              obtain ⟨r', s', fr, hr', hs', hfill⟩ := (ih rs ss (fresh + 1) j h1' h2').2 hu
              exact ⟨r', s', fr, by simpa using hr', by simpa using hs',
                by simpa using hfill⟩

/-! C2: totality of yoke resolution and default direct pairing. -/

/-- C2: for every valid yoke mapping (every referenced id in `1..n`) over
`n` ROIs with `n` stimulators, Monitor construction succeeds and resolves
every ROI index `0..n-1` to exactly one non-null TrackingUnit; and every
ROI index that is neither a focal id nor a yoked id is paired 1:1 with its
own ROI and its own positional StimulationAction, observing its own
tracker. -/
theorem yoke_resolution_total (rois : List ROI) (stims : List Nat)
    (yk : List (Int × Int)) (fresh : Nat)
    (hlen : stims.length = rois.length)
    (hval : ∀ p ∈ yk, validId rois.length p.1 ∧ validId rois.length p.2) :
    ∃ units,
      monitorInitUnits (some rois) (some stims) (some yk) fresh = .ok units ∧
      units.length = rois.length ∧
      ∀ i, i < rois.length →
        ((i : Int) + 1) ∉ yk.map Prod.fst → ((i : Int) + 1) ∉ yk.map Prod.snd →
        ∃ u s, units[i]? = some u ∧ rois[i]? = some u.roi ∧
          stims[i]? = some s ∧ u.stim = some s ∧
          u.stimTracker = some u.tracker := by
  have hvals : ∀ v ∈ yk.map Prod.snd, validId rois.length v := by
    intro v hv
    obtain ⟨p, hp, rfl⟩ := List.mem_map.mp hv
    exact (hval p hp).2
  obtain ⟨arr1, fresh1, h1, hlen1, hmono1, hvals1, hout1⟩ :=
    yokeLoop1_spec rois stims (yk.map Prod.snd)
      (List.replicate rois.length none) fresh (by simp) hlen hvals
  have hlen1' : arr1.length = rois.length := by
    rw [hlen1]
    simp
  have hsome1 : ∀ p ∈ yk, someAt arr1 (idIdx p.2) := fun p hp =>
    hvals1 p.2 (List.mem_map_of_mem Prod.snd hp)
  obtain ⟨arr2, fresh2, h2, hlen2, hmono2, hout2⟩ :=
    yokeLoop2_spec rois stims yk arr1 fresh1 hlen1' hlen hval hsome1
  have hlen2' : arr2.length = rois.length := by
    rw [hlen2]
    exact hlen1'
  have hlen2s : arr2.length = stims.length := by
    rw [hlen2']
    exact hlen.symm
  have hinit := monitorInitUnits_yoke_eq hlen h1 h2
  refine ⟨(yokeFill arr2 rois stims fresh2).1, hinit, ?_, ?_⟩
  · rw [yokeFill_length arr2 rois stims fresh2 hlen2' hlen2s]
    exact hlen2'
  · intro i hi hkey hvalue
    have huntouched2 : arr2[i]? = arr1[i]? := by
      apply hout2
      intro p hp hcontra
      have hvp := (hval p hp).1
      have hp1 : p.1 = (i : Int) + 1 := (idIdx_eq_iff hvp).mp hcontra
      exact hkey (hp1 ▸ List.mem_map_of_mem Prod.fst hp)
    have huntouched1 : arr1[i]? = (List.replicate rois.length
        (none : Option TrackingUnit))[i]? := by
      apply hout1
      intro v hv hcontra
      obtain ⟨p, hp, rfl⟩ := List.mem_map.mp hv
      have hvp := (hval p hp).2
      have hp2 : p.2 = (i : Int) + 1 := (idIdx_eq_iff hvp).mp hcontra
      exact hvalue (hp2 ▸ List.mem_map_of_mem Prod.snd hp)
    have hnone : arr2[i]? = some none := by
      rw [huntouched2, huntouched1]
      simp [List.getElem?_replicate, hi]
    obtain ⟨r, s, fr, hri, hsi, hfi⟩ :=
      (yokeFill_getElem arr2 rois stims fresh2 i hlen2' hlen2s).2 hnone
    exact ⟨⟨r, some s, fr, some fr⟩, s, hfi, by rw [hri], hsi, rfl, rfl⟩

/-- Witness for C2: three ROIs, yoke mapping `{"3": "1"}`; ROI index 1
(id 2) is neither yoked nor focal and gets its own direct pairing. -/
theorem yoke_resolution_total_witness :
    ∃ units,
      monitorInitUnits (some [⟨1⟩, ⟨2⟩, ⟨3⟩]) (some [10, 20, 30])
          (some [(3, 1)]) 0 = .ok units ∧
      units.length = ([⟨1⟩, ⟨2⟩, ⟨3⟩] : List ROI).length ∧
      ∀ i, i < ([⟨1⟩, ⟨2⟩, ⟨3⟩] : List ROI).length →
        ((i : Int) + 1) ∉ ([((3 : Int), (1 : Int))]).map Prod.fst →
        ((i : Int) + 1) ∉ ([((3 : Int), (1 : Int))]).map Prod.snd →
        ∃ u s, units[i]? = some u ∧ ([⟨1⟩, ⟨2⟩, ⟨3⟩] : List ROI)[i]? = some u.roi ∧
          ([10, 20, 30] : List Nat)[i]? = some s ∧ u.stim = some s ∧
          u.stimTracker = some u.tracker :=
  yoke_resolution_total [⟨1⟩, ⟨2⟩, ⟨3⟩] [10, 20, 30] [(3, 1)] 0 (by decide)
    (by decide)

/-! C1: yoked units observe their focal unit's tracker. -/

/-- C1 (amended): for a valid yoke mapping with distinct yoked ids, any
pair (yoked `y`, focal `f`) such that `f` is not itself re-built as a yoked
unit at the same or a later position (`f ≠ y` and `f` not a yoked id of a
later pair) yields, after construction, a yoked unit holding its own ROI
and its own positional StimulationAction whose observed tracker is
identical to the focal unit's tracker. (When `f` IS also a yoked id at the
same or a later position, the focal unit is rebuilt with a fresh tracker
after the yoked unit captured the previous one, and the identity fails:
see the counterexample.) -/
theorem yoked_observes_focal (rois : List ROI) (stims : List Nat) (fresh : Nat)
    (pre post : List (Int × Int)) (y f : Int)
    (hlen : stims.length = rois.length)
    (hval : ∀ p ∈ pre ++ (y, f) :: post,
      validId rois.length p.1 ∧ validId rois.length p.2)
    (hkeys : ((pre ++ (y, f) :: post).map Prod.fst).Nodup)
    (hfy : f ≠ y)
    (hfpost : f ∉ post.map Prod.fst) :
    ∃ units uy uf,
      monitorInitUnits (some rois) (some stims) (some (pre ++ (y, f) :: post)) fresh =
        .ok units ∧
      units[idIdx y]? = some uy ∧
      units[idIdx f]? = some uf ∧
      rois[idIdx y]? = some uy.roi ∧
      stims[idIdx y]? = uy.stim ∧
      uy.stimTracker = some uf.tracker := by
  set yk := pre ++ (y, f) :: post with hyk
  have hmidmem : (y, f) ∈ yk := by
    rw [hyk]
    exact List.mem_append_right _ (List.mem_cons_self _ _)
  have hvy : validId rois.length y := (hval (y, f) hmidmem).1
  have hvf : validId rois.length f := (hval (y, f) hmidmem).2
  have hvals : ∀ v ∈ yk.map Prod.snd, validId rois.length v := by
    intro v hv
    obtain ⟨p, hp, rfl⟩ := List.mem_map.mp hv
    exact (hval p hp).2
  obtain ⟨arr1, fresh1, h1, hlen1, hmono1, hvals1, hout1⟩ :=
    yokeLoop1_spec rois stims (yk.map Prod.snd)
      (List.replicate rois.length none) fresh (by simp) hlen hvals
  have hlen1' : arr1.length = rois.length := by
    rw [hlen1]
    simp
  have hprein : ∀ p ∈ pre, p ∈ yk := by
    intro p hp
    rw [hyk]
    exact List.mem_append_left _ hp
  have hpostin : ∀ p ∈ post, p ∈ yk := by
    intro p hp
    rw [hyk]
    exact List.mem_append_right _ (List.mem_cons_of_mem _ hp)
  obtain ⟨arr2, fresh2, h2pre, hlen2, hmono2, hout2⟩ :=
    yokeLoop2_spec rois stims pre arr1 fresh1 hlen1' hlen
      (fun p hp => hval p (hprein p hp))
      (fun p hp => hvals1 p.2 (List.mem_map_of_mem Prod.snd (hprein p hp)))
  have hlen2' : arr2.length = rois.length := by
    rw [hlen2]
    exact hlen1'
  obtain ⟨w, hw⟩ : someAt arr2 (idIdx f) :=
    hmono2 _ (hvals1 f (List.mem_map_of_mem Prod.snd hmidmem))
  have hvy' : validId arr2.length y := by rw [hlen2']; exact hvy
  have hvf' : validId arr2.length f := by rw [hlen2']; exact hvf
  have hltyr : idIdx y < rois.length := idIdx_lt hvy
  have hltys : idIdx y < stims.length := by rw [hlen]; exact idIdx_lt hvy
  have hlty2 : idIdx y < arr2.length := idIdx_lt hvy'
  have hr : pyGet rois (y - 1) = .ok rois[idIdx y] :=
    pyGet_validId hvy (List.getElem?_eq_getElem hltyr)
  have hs : pyGet stims (y - 1) = .ok stims[idIdx y] :=
    pyGet_validId (by rw [hlen]; exact hvy) (List.getElem?_eq_getElem hltys)
  have hg : pyGet arr2 (f - 1) = .ok (some w) := pyGet_validId hvf' hw
  set tu : TrackingUnit :=
    ⟨rois[idIdx y], some stims[idIdx y], fresh2, some w.tracker⟩ with htu
  have hst : pySet arr2 (y - 1) (some tu) = .ok (arr2.set (idIdx y) (some tu)) :=
    pySet_validId _ hvy'
  have hlen3 : (arr2.set (idIdx y) (some tu)).length = rois.length := by
    rw [List.length_set]
    exact hlen2'
  obtain ⟨arr4, fresh4, h2post, hlen4, hmono4, hout4⟩ :=
    yokeLoop2_spec rois stims post (arr2.set (idIdx y) (some tu)) (fresh2 + 1)
      hlen3 hlen (fun p hp => hval p (hpostin p hp))
      (fun p hp => someAt_set_some hlty2
        (hmono2 _ (hvals1 p.2 (List.mem_map_of_mem Prod.snd (hpostin p hp)))))
  have h2 : yokeLoop2 rois stims yk arr1 fresh1 = .ok (arr4, fresh4) := by
    rw [hyk, yokeLoop2_append, h2pre]
    show yokeLoop2 rois stims ((y, f) :: post) arr2 fresh2 = .ok (arr4, fresh4)
    rw [yokeLoop2_cons_step hr hs hg hst]
    exact h2post
  have hinit := monitorInitUnits_yoke_eq hlen h1 h2
  have hkeys' : (pre.map Prod.fst ++ y :: post.map Prod.fst).Nodup := by
    rw [hyk] at hkeys
    simpa using hkeys
  have hynotpost : y ∉ post.map Prod.fst :=
    (List.nodup_cons.mp (List.Nodup.of_append_right hkeys')).1
  have hy4 : arr4[idIdx y]? = some (some tu) := by
    have hcond : ∀ p ∈ post, idIdx p.1 ≠ idIdx y := by
      intro p hp hcontra
      have hvp := (hval p (hpostin p hp)).1
      have hp1 : p.1 = y := idIdx_inj hvp hvy hcontra
      exact hynotpost (hp1 ▸ List.mem_map_of_mem Prod.fst hp)
    rw [hout4 _ hcond]
    exact List.getElem?_set_eq_of_lt _ hlty2
  have hyf : idIdx y ≠ idIdx f := by
    intro hcontra
    exact hfy (idIdx_inj hvy hvf hcontra).symm
  have hf4 : arr4[idIdx f]? = some (some w) := by
    have hcond : ∀ p ∈ post, idIdx p.1 ≠ idIdx f := by
      intro p hp hcontra
      have hvp := (hval p (hpostin p hp)).1
      have hp1 : p.1 = f := idIdx_inj hvp hvf hcontra
      exact hfpost (hp1 ▸ List.mem_map_of_mem Prod.fst hp)
    rw [hout4 _ hcond, List.getElem?_set_ne hyf]
    exact hw
  have hlen4' : arr4.length = rois.length := by
    rw [hlen4]
    exact hlen3
  have hlen4s : arr4.length = stims.length := by
    rw [hlen4']
    exact hlen.symm
  have hfillY := (yokeFill_getElem arr4 rois stims fresh4 (idIdx y)
    hlen4' hlen4s).1 tu hy4
  have hfillF := (yokeFill_getElem arr4 rois stims fresh4 (idIdx f)
    hlen4' hlen4s).1 w hf4
  exact ⟨(yokeFill arr4 rois stims fresh4).1, tu, w, hinit, hfillY, hfillF,
    (List.getElem?_eq_getElem hltyr), (List.getElem?_eq_getElem hltys), rfl⟩

/-- Witness for C1 (amended theorem): two ROIs, yoke mapping `{"2": "1"}`:
the yoked unit 2 observes the focal unit 1's tracker. -/
theorem yoked_observes_focal_witness :
    ∃ units uy uf,
      monitorInitUnits (some [⟨1⟩, ⟨2⟩])
          (some [10, 20]) (some ([] ++ ((2 : Int), (1 : Int)) :: [])) 0 =
        .ok units ∧
      units[idIdx 2]? = some uy ∧
      units[idIdx 1]? = some uf ∧
      ([⟨1⟩, ⟨2⟩] : List ROI)[idIdx 2]? = some uy.roi ∧
      ([10, 20] : List Nat)[idIdx 2]? = uy.stim ∧
      uy.stimTracker = some uf.tracker :=
  yoked_observes_focal [⟨1⟩, ⟨2⟩] [10, 20] 0 [] [] 2 1 (by decide) (by decide)
    (by decide) (by decide) (by decide)

/-- Counterexample for C1 as stated: over three ROIs with the valid yoke
mapping `{"3": "2", "2": "1"}` (in that iteration order), the pair
(yoked 3, focal 2) violates the claimed identity: the focal unit 2 is
itself yoked and is rebuilt with a fresh tracker (id 3) AFTER unit 3
captured its previous tracker (id 0), so unit 3's action observes a
tracker that is no longer the focal unit's. -/
theorem yoked_observes_focal_cx :
    monitorInitUnits (some [⟨1⟩, ⟨2⟩, ⟨3⟩]) (some [10, 20, 30])
        (some [(3, 2), (2, 1)]) 0 =
      .ok [⟨⟨1⟩, some 10, 1, some 1⟩, ⟨⟨2⟩, some 20, 3, some 1⟩,
        ⟨⟨3⟩, some 30, 2, some 0⟩] ∧
    (⟨⟨3⟩, some 30, 2, some 0⟩ : TrackingUnit).stimTracker ≠
      some (⟨⟨2⟩, some 20, 3, some 1⟩ : TrackingUnit).tracker :=
  ⟨rfl, by decide⟩

/-! C5: the synchronous inactivity trigger is edge-triggered. -/

/-- C5: stepping `SleepDepInteractor._run` on a history ending in two
samples: (1) below-threshold displacement with the timer running for at
most the inactivity duration does not trigger and keeps the timer; (2) a
below-threshold sample crossing the duration triggers and clears the timer
(so the trigger is emitted exactly once: by (3) the very next
below-threshold sample merely restarts the timer without triggering); (4) an
above-threshold displacement clears the timer without triggering, whatever
the timer held. -/
theorem sleep_dep_edge_triggered (ps : List Pos) (pmm pm : Pos) (ts : List ℚ)
    (now u : ℚ) (ch : Int) (t0a : Option ℚ) :
    ((pm.x - pmm.x) ^ 2 + (pm.y - pmm.y) ^ 2 < sleepDepDistanceThreshold ^ 2 →
      now - u ≤ sleepDepInactivityThreshold →
      SleepDepInteractor._run ⟨ch, some u⟩ (ps ++ [pmm, pm]) (ts ++ [now]) =
        .ok (false, [("channel", .int ch)], ⟨ch, some u⟩)) ∧
    ((pm.x - pmm.x) ^ 2 + (pm.y - pmm.y) ^ 2 < sleepDepDistanceThreshold ^ 2 →
      now - u > sleepDepInactivityThreshold →
      SleepDepInteractor._run ⟨ch, some u⟩ (ps ++ [pmm, pm]) (ts ++ [now]) =
        .ok (true, [("channel", .int ch)], ⟨ch, none⟩)) ∧
    ((pm.x - pmm.x) ^ 2 + (pm.y - pmm.y) ^ 2 < sleepDepDistanceThreshold ^ 2 →
      SleepDepInteractor._run ⟨ch, none⟩ (ps ++ [pmm, pm]) (ts ++ [now]) =
        .ok (false, [("channel", .int ch)], ⟨ch, some now⟩)) ∧
    (¬((pm.x - pmm.x) ^ 2 + (pm.y - pmm.y) ^ 2 < sleepDepDistanceThreshold ^ 2) →
      SleepDepInteractor._run ⟨ch, t0a⟩ (ps ++ [pmm, pm]) (ts ++ [now]) =
        .ok (false, [("channel", .int ch)], ⟨ch, none⟩)) := by
  have hlen : ¬ (ps ++ [pmm, pm]).length < 2 := by
    simp only [List.length_append, List.length_cons, List.length_nil]
    omega
  refine ⟨fun hb hle => ?_, fun hb hgt => ?_, fun hb => ?_, fun hb => ?_⟩ <;>
    simp only [SleepDepInteractor._run, if_neg hlen, pyGet_concat2_neg_one,
      pyGet_concat2_neg_two, pyGet_concat_neg_one, bind, Except.bind]
  · rw [if_pos hb, if_neg (not_lt.mpr hle)]
  · rw [if_pos hb, if_pos hgt]
  · rw [if_pos hb]
  · rw [if_neg hb]

/-- Witness for C5: the four behaviors at concrete samples: stationary fly
(displacement 0 < 1/100) at timer origin 5, probed at times 50 (no
trigger), 100 (trigger, timer cleared), 100 with a cleared timer (timer
restarted, no trigger), and a 9-unit jump (timer cleared, no trigger). -/
theorem sleep_dep_edge_triggered_witness :
    SleepDepInteractor._run ⟨7, some 5⟩ [⟨0,0,1⟩, ⟨0,0,1⟩] [50] =
      .ok (false, [("channel", .int 7)], ⟨7, some 5⟩) ∧
    SleepDepInteractor._run ⟨7, some 5⟩ [⟨0,0,1⟩, ⟨0,0,1⟩] [100] =
      .ok (true, [("channel", .int 7)], ⟨7, none⟩) ∧
    SleepDepInteractor._run ⟨7, none⟩ [⟨0,0,1⟩, ⟨0,0,1⟩] [100] =
      .ok (false, [("channel", .int 7)], ⟨7, some 100⟩) ∧
    SleepDepInteractor._run ⟨7, some 5⟩ [⟨0,0,1⟩, ⟨9,9,1⟩] [100] =
      .ok (false, [("channel", .int 7)], ⟨7, none⟩) := by
  have h50 := sleep_dep_edge_triggered [] ⟨0,0,1⟩ ⟨0,0,1⟩ [] 50 5 7 none
  have h100 := sleep_dep_edge_triggered [] ⟨0,0,1⟩ ⟨0,0,1⟩ [] 100 5 7 none
  have hjump := sleep_dep_edge_triggered [] ⟨0,0,1⟩ ⟨9,9,1⟩ [] 100 5 7 (some 5)
  refine ⟨?_, ?_, ?_, ?_⟩
  · exact h50.1 (by norm_num [sleepDepDistanceThreshold])
      (by norm_num [sleepDepInactivityThreshold])
  · exact h100.2.1 (by norm_num [sleepDepDistanceThreshold])
      (by norm_num [sleepDepInactivityThreshold])
  · exact h100.2.2.1 (by norm_num [sleepDepDistanceThreshold])
  · exact hjump.2.2.2 (by norm_num [sleepDepDistanceThreshold])

/-! C6: the cumulative-distance inactivity detector with cool-down. -/

/-- C6 (amended): whenever `SystemPlaySoundOnStop._run` decides to fire,
the path length accumulated over the trailing window does not exceed
(is at most) the distance threshold, at least the cool-down duration has
elapsed since any previous trigger, and the new trigger time (the latest
sample time) is recorded. Stated for any square-root routine `sq`. -/
theorem sound_fires_only_when (sq : ℚ → ℚ) (c c' : SystemPlaySoundOnStop)
    (pos : List Pos) (ts : List ℚ) (now : ℚ) (prm : Params)
    (h : SystemPlaySoundOnStop._run sq c pos (ts ++ [now]) = .ok (true, prm, c')) :
    SystemPlaySoundOnStop._cumulative_dist sq (ts ++ [now]) pos ≤ soundDistanceThreshold ∧
    (∀ u, c.t0 = some u → now - u ≥ soundRestTime) ∧
    c'.t0 = some now := by
  by_cases h1 : (ts ++ [now]).length < 2
  · simp only [SystemPlaySoundOnStop._run, pyGet_concat_neg_one, bind, Except.bind,
      if_pos h1] at h
    exact absurd h (by simp)
  · cases hf : pyGet (ts ++ [now]) 0 with
    | error e =>
      simp only [SystemPlaySoundOnStop._run, pyGet_concat_neg_one, bind, Except.bind,
        if_neg h1, hf] at h
      exact Except.noConfusion h
    | ok firstT =>
      by_cases h2 : now - firstT < soundInactivityThreshold
      · simp only [SystemPlaySoundOnStop._run, pyGet_concat_neg_one, bind, Except.bind,
          if_neg h1, hf, if_pos h2] at h
        exact absurd h (by simp)
      · cases hp : pyGet pos (-1) with
        | error e =>
          simp only [SystemPlaySoundOnStop._run, pyGet_concat_neg_one, bind, Except.bind,
            if_neg h1, hf, if_neg h2, hp] at h
          exact Except.noConfusion h
        | ok lastP =>
          by_cases h3 : SystemPlaySoundOnStop._cumulative_dist sq (ts ++ [now]) pos >
              soundDistanceThreshold
          · simp only [SystemPlaySoundOnStop._run, pyGet_concat_neg_one, bind, Except.bind,
              if_neg h1, hf, if_neg h2, hp, if_pos h3] at h
            exact absurd h (by simp)
          · refine ⟨not_lt.mp h3, ?_⟩
            cases ht0 : c.t0 with
            | none =>
              simp only [SystemPlaySoundOnStop._run, pyGet_concat_neg_one, bind, Except.bind,
                if_neg h1, hf, if_neg h2, hp, if_neg h3, ht0, Except.ok.injEq,
                Prod.mk.injEq] at h
              exact ⟨fun u hu => by simp at hu, by rw [← h.2.2]⟩
            | some u =>
              by_cases h4 : now - u < soundRestTime
              · simp only [SystemPlaySoundOnStop._run, pyGet_concat_neg_one, bind, Except.bind,
                  if_neg h1, hf, if_neg h2, hp, if_neg h3, ht0, if_pos h4] at h
                exact absurd h (by simp)
              · simp only [SystemPlaySoundOnStop._run, pyGet_concat_neg_one, bind, Except.bind,
                  if_neg h1, hf, if_neg h2, hp, if_neg h3, ht0, if_neg h4, Except.ok.injEq,
                  Prod.mk.injEq] at h
                refine ⟨fun v hv => ?_, by rw [← h.2.2]⟩
                cases hv
                exact not_lt.mp h4

/-- The windowed path length of the exact-threshold scenario: the single
in-window segment from `(0, 0)` to `(1/5, 0)` has squared length `1/25`,
square root `1/5`. -/
theorem cumulative_dist_scenario :
    SystemPlaySoundOnStop._cumulative_dist sqrtOnScenario [0, 40]
      [⟨0, 0, 1⟩, ⟨1/5, 0, 1⟩] = 1 / 5 := by
  show cumulativeDistLoop sqrtOnScenario 40 [(40, ⟨1/5, 0, 1⟩), (0, ⟨0, 0, 1⟩)] none 0 = 1 / 5
  simp only [cumulativeDistLoop]
  norm_num [sqrtOnScenario, soundInactivityThreshold]

/-- The windowed path length of the stationary scenario is zero. -/
theorem cumulative_dist_scenario_zero :
    SystemPlaySoundOnStop._cumulative_dist sqrtOnScenario [0, 40]
      [⟨0, 0, 1⟩, ⟨0, 0, 1⟩] = 0 := by
  show cumulativeDistLoop sqrtOnScenario 40 [(40, ⟨0, 0, 1⟩), (0, ⟨0, 0, 1⟩)] none 0 = 0
  simp only [cumulativeDistLoop]
  norm_num [sqrtOnScenario, soundInactivityThreshold]

/-- The stationary scenario fires from a clean cool-down state. -/
theorem sound_run_scenario_zero :
    SystemPlaySoundOnStop._run sqrtOnScenario ⟨440, none⟩ [⟨0, 0, 1⟩, ⟨0, 0, 1⟩]
      ([0] ++ [40]) = .ok (true, [("freq", .rat 440)], ⟨440, some 40⟩) := by
  have hg1 : pyGet (([0] ++ [40]) : List ℚ) (-1) = .ok 40 := pyGet_concat_neg_one [0] 40
  have hg2 : pyGet (([0] ++ [40]) : List ℚ) 0 = .ok 0 := pyGet_cons_zero 0 [40]
  have hg3 : pyGet [(⟨0, 0, 1⟩ : Pos), ⟨0, 0, 1⟩] (-1) = .ok ⟨0, 0, 1⟩ := by
    have hx := pyGet_concat_neg_one [(⟨0, 0, 1⟩ : Pos)] (⟨0, 0, 1⟩ : Pos)
    simpa using hx
  have hcd := cumulative_dist_scenario_zero
  simp only [SystemPlaySoundOnStop._run, bind, Except.bind, hg1, hg2, hg3]
  rw [show SystemPlaySoundOnStop._cumulative_dist sqrtOnScenario ([0] ++ [40])
      [⟨0, 0, 1⟩, ⟨0, 0, 1⟩] = 0 from hcd]
  norm_num [soundInactivityThreshold, soundDistanceThreshold]

/-- Witness for C6 (amended theorem): a stationary fly over a full window
with no previous trigger fires, with windowed path length 0 ≤ 1/5 and the
trigger time 40 recorded. -/
theorem sound_fires_only_when_witness :
    SystemPlaySoundOnStop._run sqrtOnScenario ⟨440, none⟩ [⟨0, 0, 1⟩, ⟨0, 0, 1⟩]
      ([0] ++ [40]) = .ok (true, [("freq", .rat 440)], ⟨440, some 40⟩) ∧
    SystemPlaySoundOnStop._cumulative_dist sqrtOnScenario ([0] ++ [40])
      [⟨0, 0, 1⟩, ⟨0, 0, 1⟩] ≤ soundDistanceThreshold ∧
    (⟨440, some 40⟩ : SystemPlaySoundOnStop).t0 = some 40 := by
  have h := sound_fires_only_when sqrtOnScenario ⟨440, none⟩ ⟨440, some 40⟩
    [⟨0, 0, 1⟩, ⟨0, 0, 1⟩] [0] 40 [("freq", .rat 440)] sound_run_scenario_zero
  exact ⟨sound_run_scenario_zero, h.1, h.2.2⟩

/-- Counterexample for C6 as stated: with exact arithmetic
(`sqrtOnScenario` agrees with the real square root on the one segment
reached, `sqrt(1/25) = 1/5`), the detector fires while the windowed path
length is exactly equal to the distance threshold `1/5`, hence not
strictly below it: firing does not imply the accumulated path length
"stays below the distance threshold". -/
theorem sound_fires_at_threshold_cx :
    SystemPlaySoundOnStop._run sqrtOnScenario ⟨440, none⟩ [⟨0, 0, 1⟩, ⟨1/5, 0, 1⟩]
      ([0] ++ [40]) = .ok (true, [("freq", .rat 440)], ⟨440, some 40⟩) ∧
    SystemPlaySoundOnStop._cumulative_dist sqrtOnScenario ([0] ++ [40])
      [⟨0, 0, 1⟩, ⟨1/5, 0, 1⟩] = soundDistanceThreshold ∧
    ¬ (SystemPlaySoundOnStop._cumulative_dist sqrtOnScenario ([0] ++ [40])
      [⟨0, 0, 1⟩, ⟨1/5, 0, 1⟩] < soundDistanceThreshold) := by
  have hg1 : pyGet (([0] ++ [40]) : List ℚ) (-1) = .ok 40 := pyGet_concat_neg_one [0] 40
  have hg2 : pyGet (([0] ++ [40]) : List ℚ) 0 = .ok 0 := pyGet_cons_zero 0 [40]
  have hg3 : pyGet [(⟨0, 0, 1⟩ : Pos), ⟨1/5, 0, 1⟩] (-1) = .ok ⟨1/5, 0, 1⟩ := by
    have hx := pyGet_concat_neg_one [(⟨0, 0, 1⟩ : Pos)] (⟨1/5, 0, 1⟩ : Pos)
    simpa using hx
  have hcd : SystemPlaySoundOnStop._cumulative_dist sqrtOnScenario ([0] ++ [40])
      [⟨0, 0, 1⟩, ⟨1/5, 0, 1⟩] = 1 / 5 := cumulative_dist_scenario
  refine ⟨?_, ?_, ?_⟩
  · simp only [SystemPlaySoundOnStop._run, bind, Except.bind, hg1, hg2, hg3, hcd]
    norm_num [soundInactivityThreshold, soundDistanceThreshold]
  · rw [hcd]
    norm_num [soundDistanceThreshold]
  · rw [hcd]
    norm_num [soundDistanceThreshold]

/-! C7: terminal outcomes of `Monitor.run`. -/

/-- C7: on every terminal outcome of `run` the `is_running` flag is false
afterwards; a run over an empty frame source terminates normally with every
state field (in particular `last_frame_idx`) unchanged except the cleared
running flag; and an exception raised by the first unit's `track` on the
first frame propagates out of `run`, again with `is_running` false. -/
theorem run_clears_running_and_propagates :
    (∀ units hw hd frames (m : Monitor),
        (Monitor.run m units hw hd frames).2.1.isRunning = false) ∧
    (∀ units hw hd (m : Monitor),
        Monitor.run m units hw hd [] =
          (.ok (), { m with isRunning := false }, [])) ∧
    (∀ (u : RunUnit) us hw hd t frame rest (m : Monitor) e,
        m.forceStop = false → u.track t frame = .error e →
        (Monitor.run m (u :: us) hw hd ((t, frame) :: rest)).1 = .error e ∧
        (Monitor.run m (u :: us) hw hd ((t, frame) :: rest)).2.1.isRunning = false) := by
  refine ⟨fun units hw hd frames m => by simp [Monitor.run],
          fun units hw hd m => by simp [Monitor.run, runLoop],
          fun u us hw hd t frame rest m e hstop htrack => ?_⟩
  constructor <;> simp [Monitor.run, runLoop, trackUnits, hstop, htrack]

/-- A tracking unit whose `track` always raises, for the C7 witness. -/
def failingRunUnit : RunUnit :=
  ⟨⟨1⟩, fun _ _ => .error .attributeError, fun _ _ => []⟩

/-- Witness for C7: a fresh Monitor over one frame and a raising unit:
the exception propagates and the running flag is false; and the empty
source leaves `last_frame_idx` at its initial value. -/
theorem run_clears_running_and_propagates_witness :
    (Monitor.run {} [] false false []).2.1.lastFrameIdx = ({} : Monitor).lastFrameIdx ∧
    (Monitor.run {} [] false false []).1 = .ok () ∧
    ({} : Monitor).forceStop = false ∧
    (Monitor.run {} [failingRunUnit] false false [(0, 0)]).1 = .error .attributeError ∧
    (Monitor.run {} [failingRunUnit] false false [(0, 0)]).2.1.isRunning = false := by
  obtain ⟨h1, h2, h3⟩ := run_clears_running_and_propagates
  have he := h2 [] false false {}
  have hf := h3 failingRunUnit [] false false 0 0 [] {} .attributeError rfl rfl
  exact ⟨by rw [he], by rw [he], rfl, hf.1, hf.2⟩
